import Mathlib

/-!
Verification of the incremental photo-sync engine shared by the two
organizer scripts `lulofoto.py` (with an optional start-date floor) and
`bak-foto.py` (without).  The Python code is shallowly embedded: dates are
records of calendar fields compared lexicographically (as Python
`datetime` does), the walked source tree is a list of per-file records,
the destination filesystem is the list of file paths present, and the
per-file loop body is a state-passing step function.  Exceptions raised
by `shutil.copy2` are modelled by a per-file flag; everything else the
loop body does is total.
-/

namespace Lulofoto

/-- Calendar date-time with second precision, modelling Python `datetime`
objects as used by the scripts (microseconds are never compared by the
engine's decision logic and are dropped). -/
structure DateTime where
  year : Nat
  month : Nat
  day : Nat
  hour : Nat
  minute : Nat
  second : Nat
deriving DecidableEq

/-- Strict comparison of date-times, field-lexicographic exactly as
Python compares `datetime` values. -/
def DateTime.ltb (a b : DateTime) : Bool :=
  if a.year ≠ b.year then decide (a.year < b.year)
  else if a.month ≠ b.month then decide (a.month < b.month)
  else if a.day ≠ b.day then decide (a.day < b.day)
  else if a.hour ≠ b.hour then decide (a.hour < b.hour)
  else if a.minute ≠ b.minute then decide (a.minute < b.minute)
  else decide (a.second < b.second)

/-- Non-strict comparison of date-times (Python `<=`). -/
def DateTime.leb (a b : DateTime) : Bool :=
  a.ltb b || a == b

/-- Zero-padded two-digit decimal rendering (`%02d`, as used by
`strftime` for `%y`, `%m`, `%d`, `%H`, `%M`, `%S`). -/
def pad2 (n : Nat) : String :=
  if n < 10 then "0" ++ Nat.repr n else Nat.repr n

/-- Zero-padded four-digit decimal rendering (`%04d`, as used for the
year in `isoformat`). -/
def pad4 (n : Nat) : String :=
  if n < 10 then "000" ++ Nat.repr n
  else if n < 100 then "00" ++ Nat.repr n
  else if n < 1000 then "0" ++ Nat.repr n
  else Nat.repr n

/-- Python `photo_date.strftime("%y%m%d")`: the destination bucket folder name. -/
def strftime_yymmdd (d : DateTime) : String :=
  pad2 (d.year % 100) ++ pad2 d.month ++ pad2 d.day

/-- Python `datetime.isoformat()` restricted to second precision. -/
def isoformat (d : DateTime) : String :=
  pad4 d.year ++ "-" ++ pad2 d.month ++ "-" ++ pad2 d.day ++ "T" ++
    pad2 d.hour ++ ":" ++ pad2 d.minute ++ ":" ++ pad2 d.second

/-- Value of a decimal digit character. -/
def digit? (c : Char) : Option Nat :=
  if c.isDigit then some (c.toNat - 48) else none

/-- Two decimal digit characters as a number. -/
def parse2 (a b : Char) : Option Nat := do
  pure ((← digit? a) * 10 + (← digit? b))

/-- Four decimal digit characters as a number. -/
def parse4 (a b c d : Char) : Option Nat := do
  pure (((← digit? a) * 10 + (← digit? b)) * 100 + ((← digit? c) * 10 + (← digit? d)))

/-- Python `datetime.strptime(value, "%Y:%m:%d %H:%M:%S")` on canonical
zero-padded EXIF date strings; any other string fails to parse
(modelling the raised `ValueError` as `none`). -/
def parseExifDT (s : String) : Option DateTime :=
  match s.data with
  | [y1, y2, y3, y4, c1, m1, m2, c2, d1, d2, c3, h1, h2, c4, n1, n2, c5, s1, s2] =>
    if c1 = ':' ∧ c2 = ':' ∧ c3 = ' ' ∧ c4 = ':' ∧ c5 = ':' then do
      let y ← parse4 y1 y2 y3 y4
      let mo ← parse2 m1 m2
      let da ← parse2 d1 d2
      let ho ← parse2 h1 h2
      let mi ← parse2 n1 n2
      let se ← parse2 s1 s2
      pure ⟨y, mo, da, ho, mi, se⟩
    else none
  | _ => none

/-- Python `datetime.fromisoformat` on the canonical 19-character form written
by `save_state` (second precision); other strings fail (`ValueError`). -/
def parseIso (s : String) : Option DateTime :=
  match s.data with
  | [y1, y2, y3, y4, c1, m1, m2, c2, d1, d2, c3, h1, h2, c4, n1, n2, c5, s1, s2] =>
    if c1 = '-' ∧ c2 = '-' ∧ c3 = 'T' ∧ c4 = ':' ∧ c5 = ':' then do
      let y ← parse4 y1 y2 y3 y4
      let mo ← parse2 m1 m2
      let da ← parse2 d1 d2
      let ho ← parse2 h1 h2
      let mi ← parse2 n1 n2
      let se ← parse2 s1 s2
      pure ⟨y, mo, da, ho, mi, se⟩
    else none
  | _ => none

/-- Index of the last `'.'` in a character list (Python `str.rfind('.')`
when it succeeds). -/
def lastDotIdx (cs : List Char) : Option Nat :=
  match cs.reverse.findIdx? (fun c => c = '.') with
  | some j => some (cs.length - 1 - j)
  | none => none

/-- Python `os.path.splitext` on a bare file name (no directory separators):
split at the last dot provided some earlier character of the name is not
a dot, following CPython's `genericpath._splitext`. -/
def splitext (filename : String) : String × String :=
  let cs := filename.data
  match lastDotIdx cs with
  | some di =>
    if (cs.take di).any (fun c => c ≠ '.') then
      ((cs.take di).asString, (cs.drop di).asString)
    else (filename, "")
  | none => (filename, "")

/-- Python `pathlib.Path(filename).suffix`: the part from the last dot, provided
that dot is neither the first nor the last character of the name. -/
def pathSuffix (filename : String) : String :=
  let cs := filename.data
  match lastDotIdx cs with
  | some i =>
    if 0 < i ∧ i + 1 < cs.length then (cs.drop i).asString else ""
  | none => ""

/-- ASCII lower-casing of a string (Python `str.lower` on extension
strings, which are ASCII). -/
def lowerStr (s : String) : String :=
  (s.data.map Char.toLower).asString

/-- The fixed allow-list `IMAGE_EXTENSIONS` of both scripts. -/
def IMAGE_EXTENSIONS : List String :=
  [".jpg", ".jpeg", ".png", ".gif", ".bmp", ".tiff", ".tif",
   ".heic", ".heif", ".raw", ".cr2", ".nef", ".arw", ".dng"]

/-- The extension test `is_image_file` from both scripts. -/
def is_image_file (filename : String) : Bool :=
  IMAGE_EXTENSIONS.contains (lowerStr (pathSuffix filename))

/-- Python `os.path.join` for the paths the engine builds. -/
def pathJoin (a b : String) : String := a ++ "/" ++ b

/-- A file discovered by the walk: its source-relative key, its base
name, its filesystem modification time, its embedded EXIF date-time tags
in encounter order (`none` when the file cannot be opened as an image or
carries no EXIF data), and whether the byte copy (`shutil.copy2`) to the
destination would raise for it. -/
structure SrcFile where
  relKey : String
  filename : String
  mtime : DateTime
  exif : Option (List (String × String))
  copyFails : Bool
deriving DecidableEq

/-- The inner EXIF loop of `get_photo_date`: walk the tag/value pairs in
encounter order and return on the first of the three date tags whose
value parses; a parse failure is swallowed and the scan continues. -/
def examineExif : List (String × String) → Option DateTime
  | [] => none
  | (tag, v) :: rest =>
    if tag = "DateTimeOriginal" ∨ tag = "DateTime" ∨ tag = "DateTimeDigitized" then
      match parseExifDT v with
      | some d => some d
      | none => examineExif rest
    else examineExif rest

/-- The resolver `get_photo_date`: EXIF date when PIL is available and a candidate tag
parses, otherwise the file's modification time.  (An empty tag dict is
falsy in Python and likewise falls through to the modification time.) -/
def get_photo_date (hasPIL : Bool) (f : SrcFile) : DateTime :=
  if hasPIL then
    match f.exif with
    | some entries =>
      match examineExif entries with
      | some d => d
      | none => f.mtime
    | none => f.mtime
  else f.mtime

/-- Membership test of a key in the `copied_files` dict. -/
def dictMember (k : String) (d : List (String × String)) : Bool :=
  d.any (fun e => e.1 == k)

/-- Python dict assignment `d[k] = v`: update in place when the key is
present, append at the end otherwise. -/
def dictInsert (k v : String) (d : List (String × String)) : List (String × String) :=
  if dictMember k d then d.map (fun e => if e.1 == k then (k, v) else e)
  else d ++ [(k, v)]

/-- The candidate path `bucket/base_k.ext` tried by the duplicate-name
loop at counter `k`. -/
def destCandidate (folder filename : String) (k : Nat) : String :=
  let be := splitext filename
  pathJoin folder (be.1 ++ "_" ++ Nat.repr k ++ be.2)

/-- The `while os.path.exists(dest_path)` loop of the collision handler,
trying counters `k`, `k+1`, … .  The loop in the source runs until a free
name appears; here it carries fuel, and `resolveCollision` passes enough
fuel for exhaustion to be unreachable (`resolveCollision_not_mem` proves
a free name is always found before the fuel runs out). -/
def findFreeFrom (fs : List String) (folder filename : String) : Nat → Nat → String
  | 0, k => destCandidate folder filename k
  | fuel + 1, k =>
    let c := destCandidate folder filename k
    if fs.contains c then findFreeFrom fs folder filename fuel (k + 1) else c

/-- Destination-path planning with duplicate handling (`organize_photos`
lines around `# Handle duplicate filenames`): use `folder/filename` when
free, else insert `_1`, `_2`, … before the extension until a name not
present in the destination is found. -/
def resolveCollision (fs : List String) (folder filename : String) : String :=
  let dest_path := pathJoin folder filename
  if fs.contains dest_path then findFreeFrom fs folder filename (fs.length + 1) 1
  else dest_path

/-- The run statistics dict of `organize_photos`. -/
structure Stats where
  total_found : Nat
  copied : Nat
  skipped : Nat
  errors : Nat
deriving DecidableEq

/-- How the loop body classified one discovered image file. -/
inductive Outcome where
  | skippedFloor
  | skippedState
  | copiedOk
  | errored
deriving DecidableEq

/-- The state threaded through the walk: the in-memory `copied_files`
dict, the set of file paths present under the destination, and the
statistics counters. -/
structure WalkEnv where
  copied_files : List (String × String)
  destFS : List String
  stats : Stats
deriving DecidableEq

/-- Loop body of `organize_photos` in `lulofoto.py` for one image file
(the caller has already filtered on `is_image_file`): count it, resolve
the photo date, apply the start-date floor, apply the last-sync skip
rule, otherwise plan the destination path and copy, catching a copy
failure as an error. -/
def stepLulo (hasPIL force_all : Bool) (start_date last_sync : Option DateTime)
    (dest_dir : String) (env : WalkEnv) (f : SrcFile) : WalkEnv × Outcome :=
  let stats0 : Stats := { env.stats with total_found := env.stats.total_found + 1 }
  let env0 : WalkEnv := { env with stats := stats0 }
  let photo_date := get_photo_date hasPIL f
  if (match start_date with
      | some sd => photo_date.ltb sd
      | none => false) then
    ({ env0 with stats := { stats0 with skipped := stats0.skipped + 1 } }, .skippedFloor)
  else
    let file_mtime := f.mtime
    let file_key := f.relKey
    if (!force_all && start_date.isNone &&
        (match last_sync with
         | some ls => file_mtime.leb ls
         | none => false) &&
        dictMember file_key env0.copied_files) then
      ({ env0 with stats := { stats0 with skipped := stats0.skipped + 1 } }, .skippedState)
    else
      let date_folder := strftime_yymmdd photo_date
      let dest_folder := pathJoin dest_dir date_folder
      let dest_path := resolveCollision env0.destFS dest_folder f.filename
      if f.copyFails then
        ({ env0 with stats := { stats0 with errors := stats0.errors + 1 } }, .errored)
      else
        ({ copied_files := dictInsert file_key (isoformat photo_date) env0.copied_files,
           destFS := dest_path :: env0.destFS,
           stats := { stats0 with copied := stats0.copied + 1 } }, .copiedOk)

/-- Loop body of `organize_photos` in `bak-foto.py`: identical except
that there is no start-date floor and the photo date is resolved only on
the copy path. -/
def stepBak (hasPIL force_all : Bool) (last_sync : Option DateTime)
    (dest_dir : String) (env : WalkEnv) (f : SrcFile) : WalkEnv × Outcome :=
  let stats0 : Stats := { env.stats with total_found := env.stats.total_found + 1 }
  let env0 : WalkEnv := { env with stats := stats0 }
  let file_mtime := f.mtime
  let file_key := f.relKey
  if (!force_all &&
      (match last_sync with
       | some ls => file_mtime.leb ls
       | none => false) &&
      dictMember file_key env0.copied_files) then
    ({ env0 with stats := { stats0 with skipped := stats0.skipped + 1 } }, .skippedState)
  else
    let photo_date := get_photo_date hasPIL f
    let date_folder := strftime_yymmdd photo_date
    let dest_folder := pathJoin dest_dir date_folder
    let dest_path := resolveCollision env0.destFS dest_folder f.filename
    if f.copyFails then
      ({ env0 with stats := { stats0 with errors := stats0.errors + 1 } }, .errored)
    else
      ({ copied_files := dictInsert file_key (isoformat photo_date) env0.copied_files,
         destFS := dest_path :: env0.destFS,
         stats := { stats0 with copied := stats0.copied + 1 } }, .copiedOk)

/-- The `os.walk` loop of `lulofoto.py`: files are visited in walk order
and non-image names fall through the `continue` without touching any
counter. -/
def runWalkLulo (hasPIL force_all : Bool) (start_date last_sync : Option DateTime)
    (dest_dir : String) (files : List SrcFile) (env : WalkEnv) : WalkEnv :=
  files.foldl
    (fun e f =>
      if is_image_file f.filename then
        (stepLulo hasPIL force_all start_date last_sync dest_dir e f).1
      else e)
    env

/-- The `os.walk` loop of `bak-foto.py`. -/
def runWalkBak (hasPIL force_all : Bool) (last_sync : Option DateTime)
    (dest_dir : String) (files : List SrcFile) (env : WalkEnv) : WalkEnv :=
  files.foldl
    (fun e f =>
      if is_image_file f.filename then
        (stepBak hasPIL force_all last_sync dest_dir e f).1
      else e)
    env

/-- The loaded sync state as the engine consumes it: `last_sync` and the
`copied_files` dict. -/
structure SyncSt where
  last_sync : Option DateTime
  copied_files : List (String × String)
deriving DecidableEq

/-- The observable result of one `organize_photos` invocation: the
boolean the function returns, the statistics, the state passed to
`save_state`, and the destination file set. -/
structure RunResult where
  success : Bool
  stats : Stats
  state : SyncSt
  destFS : List String
deriving DecidableEq

/-- The engine `organize_photos` of `lulofoto.py`: fail early when the source
directory is missing; otherwise walk, then save the state with
`last_sync` set to the wall-clock end of the run (`endTime`) and return
`True` regardless of per-file errors. -/
def organize_photos (hasPIL sourceExists : Bool) (dest_dir : String)
    (files : List SrcFile) (st : SyncSt) (force_all : Bool)
    (start_date : Option DateTime) (destFS0 : List String)
    (endTime : DateTime) : RunResult :=
  if !sourceExists then
    { success := false, stats := ⟨0, 0, 0, 0⟩, state := st, destFS := destFS0 }
  else
    let env0 : WalkEnv := ⟨st.copied_files, destFS0, ⟨0, 0, 0, 0⟩⟩
    let env1 := runWalkLulo hasPIL force_all start_date st.last_sync dest_dir files env0
    { success := true, stats := env1.stats,
      state := { last_sync := some endTime, copied_files := env1.copied_files },
      destFS := env1.destFS }

/-- The engine `organize_photos` of `bak-foto.py`. -/
def organize_photos_bak (hasPIL sourceExists : Bool) (dest_dir : String)
    (files : List SrcFile) (st : SyncSt) (force_all : Bool)
    (destFS0 : List String) (endTime : DateTime) : RunResult :=
  if !sourceExists then
    { success := false, stats := ⟨0, 0, 0, 0⟩, state := st, destFS := destFS0 }
  else
    let env0 : WalkEnv := ⟨st.copied_files, destFS0, ⟨0, 0, 0, 0⟩⟩
    let env1 := runWalkBak hasPIL force_all st.last_sync dest_dir files env0
    { success := true, stats := env1.stats,
      state := { last_sync := some endTime, copied_files := env1.copied_files },
      destFS := env1.destFS }

/-- The process exit status chosen by `main`: `sys.exit(0 if success else 1)`
after `organize_photos` ran. -/
def mainExit (hasPIL sourceExists : Bool) (dest_dir : String)
    (files : List SrcFile) (st : SyncSt) (force_all : Bool)
    (start_date : Option DateTime) (destFS0 : List String)
    (endTime : DateTime) : Nat :=
  if (organize_photos hasPIL sourceExists dest_dir files st force_all
      start_date destFS0 endTime).success then 0 else 1

/-- A Python value as `load_state` can produce it: the JSON universe plus
a `datetime` leaf (the converted `last_sync` value). -/
inductive PVal where
  | vnull : PVal
  | vbool : Bool → PVal
  | vnum : Int → PVal
  | vstr : String → PVal
  | varr : List PVal → PVal
  | vobj : List (String × PVal) → PVal
  | vdate : DateTime → PVal

/-- Whether a value is the given Python string (the only equality the
`in` check on a parsed-JSON list can observe for a string operand). -/
def PVal.isStrVal (v : PVal) (k : String) : Bool :=
  match v with
  | .vstr s => s == k
  | _ => false

/-- Whether one string occurs as a contiguous substring of another
(Python `in` on strings). -/
def strContains (hay pat : String) : Bool :=
  (List.range (hay.data.length + 1)).any
    (fun i => ((hay.data.drop i).take pat.data.length) == pat.data)

/-- Key membership in a parsed-JSON object. -/
def objHasKey (k : String) : List (String × PVal) → Bool
  | [] => false
  | e :: rest => e.1 == k || objHasKey k rest

/-- Key lookup in a parsed-JSON object (keys of parsed JSON objects are
unique, later duplicates having overridden earlier ones at parse time). -/
def objGet (k : String) : List (String × PVal) → Option PVal
  | [] => none
  | e :: rest => if e.1 == k then some e.2 else objGet k rest

/-- Dict assignment `d[k] = v` on a parsed-JSON object. -/
def objSet (k : String) (v : PVal) : List (String × PVal) → List (String × PVal)
  | [] => [(k, v)]
  | e :: rest => if e.1 == k then (k, v) :: rest else e :: objSet k v rest

/-- Python `'last_sync' in state`: key membership for a dict, element
membership for a list, substring test for a string, and a `TypeError`
(modelled as `Except.error`) for the non-container values. -/
def pyContains (v : PVal) (k : String) : Except Unit Bool :=
  match v with
  | .vobj l => .ok (objHasKey k l)
  | .varr l => .ok (l.any (fun e => e.isStrVal k))
  | .vstr s => .ok (strContains s k)
  | _ => .error ()

/-- Python `state['last_sync']`: dict lookup, raising (`Except.error`)
for every non-dict subject (`TypeError`) and for a missing key
(`KeyError`). -/
def pyGetItem (v : PVal) (k : String) : Except Unit PVal :=
  match v with
  | .vobj l =>
    match objGet k l with
    | some x => .ok x
    | none => .error ()
  | _ => .error ()

/-- Python `state['last_sync'] = x` on the loaded value; assignment to a
non-dict raises. -/
def pySetItem (v : PVal) (k : String) (x : PVal) : Except Unit PVal :=
  match v with
  | .vobj l => .ok (.vobj (objSet k x l))
  | _ => .error ()

/-- Python `datetime.fromisoformat(x)`: parses a canonical ISO string, raising
a `ValueError` on an unparseable string and a `TypeError` on a non-string
argument. -/
def pyFromIso (v : PVal) : Except Unit DateTime :=
  match v with
  | .vstr s =>
    match parseIso s with
    | some d => .ok d
    | none => .error ()
  | _ => .error ()

/-- The body of the `try` block of `load_state` after `json.load`
succeeded: convert the `last_sync` field in place when present, then
return the state object unchanged otherwise. -/
def loadTry (v : PVal) : Except Unit PVal := do
  let has ← pyContains v "last_sync"
  if has then
    let lsv ← pyGetItem v "last_sync"
    let d ← pyFromIso lsv
    pySetItem v "last_sync" (.vdate d)
  else
    pure v

/-- The default state `{'last_sync': None, 'copied_files': {}}`. -/
def defaultState : PVal :=
  .vobj [("last_sync", .vnull), ("copied_files", .vobj [])]

/-- The loader `load_state`: the sidecar file is absent (`none`), present but not
JSON-parseable (`some none`, `json.load` raises), or parses to a value.
The result pairs the returned state with whether the warning was
printed. -/
def load_state (sidecar : Option (Option PVal)) : PVal × Bool :=
  match sidecar with
  | none => (defaultState, false)
  | some none => (defaultState, true)
  | some (some v) =>
    match loadTry v with
    | .ok v1 => (v1, false)
    | .error _ => (defaultState, true)

/-- Numeric value of one decimal digit character (proof apparatus for
reasoning about `Nat.repr`). -/
def digitVal (c : Char) : Nat := c.toNat - 48

/-- Numeric value of a decimal digit string (proof apparatus: a left
inverse of `Nat.toDigits 10`). -/
def digitsVal (l : List Char) : Nat :=
  l.foldl (fun a c => 10 * a + digitVal c) 0

/-! ### Proofs -/

theorem toDigitsCore_acc (fuel : Nat) :
    ∀ (n : Nat) (ds : List Char),
      Nat.toDigitsCore 10 fuel n ds = Nat.toDigitsCore 10 fuel n [] ++ ds := by
  induction fuel with
  | zero => intro n ds; simp [Nat.toDigitsCore]
  | succ fuel ih =>
    intro n ds
    simp only [Nat.toDigitsCore]
    by_cases h : n / 10 = 0
    · simp [h]
    · simp only [h, if_false]
      rw [ih (n / 10) (Nat.digitChar (n % 10) :: ds),
          ih (n / 10) [Nat.digitChar (n % 10)]]
      simp

theorem digitVal_digitChar : ∀ m, m < 10 → digitVal (Nat.digitChar m) = m := by decide

theorem foldl_toDigitsCore (fuel : Nat) :
    ∀ (n : Nat), n < fuel → ∀ (a : Nat),
      List.foldl (fun x c => 10 * x + digitVal c) a (Nat.toDigitsCore 10 fuel n []) =
        a * 10 ^ (Nat.toDigitsCore 10 fuel n []).length + n := by
  induction fuel with
  | zero => intro n h; omega
  | succ fuel ih =>
    intro n hn a
    simp only [Nat.toDigitsCore]
    by_cases h : n / 10 = 0
    · have hn9 : n < 10 := by omega
      have hmod : n % 10 = n := Nat.mod_eq_of_lt hn9
      simp only [h, if_true, List.foldl, List.length_cons, List.length_nil]
      rw [hmod, digitVal_digitChar n hn9]
      omega
    · simp only [h, if_false]
      rw [toDigitsCore_acc fuel (n / 10) [Nat.digitChar (n % 10)]]
      have hlt : n / 10 < fuel := by omega
      rw [List.foldl_append, ih (n / 10) hlt a]
      simp only [List.foldl, List.length_append, List.length_cons, List.length_nil]
      rw [digitVal_digitChar (n % 10) (by omega)]
      ring_nf
      omega

theorem digitsVal_toDigits (n : Nat) : digitsVal (Nat.toDigits 10 n) = n := by
  unfold digitsVal Nat.toDigits
  rw [foldl_toDigitsCore (n + 1) n (Nat.lt_succ_self n) 0]
  simp

theorem Nat_repr_injective : Function.Injective Nat.repr := by
  intro m n h
  have h2 : Nat.toDigits 10 m = Nat.toDigits 10 n := by
    have h3 := congrArg String.data h
    simpa [Nat.repr, List.asString] using h3
  have h4 := congrArg digitsVal h2
  rwa [digitsVal_toDigits, digitsVal_toDigits] at h4

theorem pad2_length : ∀ n, n < 100 → (pad2 n).length = 2 := by decide

theorem pad2_digits : ∀ n, n < 100 → ∀ c ∈ (pad2 n).data, c.isDigit = true := by decide

theorem destCandidate_inj (folder filename : String) :
    Function.Injective (destCandidate folder filename) := by
  intro k1 k2 h
  have hd := congrArg String.data h
  simp only [destCandidate, pathJoin, String.data_append, List.append_assoc,
    List.append_cancel_left_eq, List.append_cancel_right_eq] at hd
  exact Nat_repr_injective (String.ext hd)

theorem exists_free_candidate (fs : List String) (folder filename : String) :
    ∃ j, j < fs.length + 1 ∧
      fs.contains (destCandidate folder filename (1 + j)) = false := by
  by_contra hc
  push_neg at hc
  have hsub : ((List.range (fs.length + 1)).map
      (fun j => destCandidate folder filename (1 + j))) ⊆ fs := by
    intro x hx
    simp only [List.mem_map, List.mem_range] at hx
    obtain ⟨j, hj, rfl⟩ := hx
    have h1 := hc j hj
    simp only [List.contains, List.elem_eq_mem, decide_eq_true_eq] at h1
    revert h1
    by_cases hm : destCandidate folder filename (1 + j) ∈ fs <;> simp [hm]
  have hnodup : ((List.range (fs.length + 1)).map
      (fun j => destCandidate folder filename (1 + j))).Nodup := by
    refine List.Nodup.map ?_ (List.nodup_range _)
    intro a b hab
    have h5 := destCandidate_inj folder filename hab
    omega
  have hle := (List.subperm_of_subset hnodup hsub).length_le
  simp only [List.length_map, List.length_range] at hle
  omega

theorem contains_false_iff (fs : List String) (x : String) :
    fs.contains x = false ↔ x ∉ fs := by
  simp only [List.contains, List.elem_eq_mem]
  by_cases h : x ∈ fs <;> simp [h]

theorem contains_true_iff (fs : List String) (x : String) :
    fs.contains x = true ↔ x ∈ fs := by
  simp only [List.contains, List.elem_eq_mem]
  by_cases h : x ∈ fs <;> simp [h]

theorem findFreeFrom_not_mem (fs : List String) (folder filename : String) :
    ∀ (fuel k : Nat),
      (∃ j, j < fuel ∧ fs.contains (destCandidate folder filename (k + j)) = false) →
      fs.contains (findFreeFrom fs folder filename fuel k) = false := by
  intro fuel
  induction fuel with
  | zero =>
    intro k h
    obtain ⟨j, hj, _⟩ := h
    omega
  | succ fuel ih =>
    intro k h
    obtain ⟨j, hj, hfree⟩ := h
    simp only [findFreeFrom]
    by_cases hc : fs.contains (destCandidate folder filename k) = true
    · simp only [hc, if_true]
      apply ih
      rcases j with _ | j1
      · rw [Nat.add_zero] at hfree
        rw [hfree] at hc
        cases hc
      · refine ⟨j1, by omega, ?_⟩
        have he : k + 1 + j1 = k + (j1 + 1) := by omega
        rw [he]
        exact hfree
    · simp only [Bool.not_eq_true] at hc
      have hm := (contains_false_iff fs _).mp hc
      simp [hm]

theorem resolveCollision_not_mem (fs : List String) (folder filename : String) :
    fs.contains (resolveCollision fs folder filename) = false := by
  unfold resolveCollision
  by_cases h : fs.contains (pathJoin folder filename) = true
  · simp only [h, if_true]
    apply findFreeFrom_not_mem
    obtain ⟨j, hj, hfree⟩ := exists_free_candidate fs folder filename
    exact ⟨j, by omega, hfree⟩
  · simp only [Bool.not_eq_true] at h
    have hm := (contains_false_iff fs _).mp h
    simp [hm]

theorem resolveCollision_of_free (fs : List String) (folder filename : String)
    (h : fs.contains (pathJoin folder filename) = false) :
    resolveCollision fs folder filename = pathJoin folder filename := by
  unfold resolveCollision
  have hm := (contains_false_iff fs _).mp h
  simp [hm]

theorem findFreeFrom_shape (fs : List String) (folder filename : String) :
    ∀ (fuel k : Nat), ∃ k2, k ≤ k2 ∧
      findFreeFrom fs folder filename fuel k = destCandidate folder filename k2 := by
  intro fuel
  induction fuel with
  | zero => intro k; exact ⟨k, Nat.le_refl k, rfl⟩
  | succ fuel ih =>
    intro k
    simp only [findFreeFrom]
    by_cases hc : fs.contains (destCandidate folder filename k) = true
    · obtain ⟨k2, hk2, heq⟩ := ih (k + 1)
      have hm := (contains_true_iff fs _).mp hc
      exact ⟨k2, by omega, by simp [hm, heq]⟩
    · simp only [Bool.not_eq_true] at hc
      have hm := (contains_false_iff fs _).mp hc
      exact ⟨k, Nat.le_refl k, by simp [hm]⟩

theorem resolveCollision_shape (fs : List String) (folder filename : String)
    (h : fs.contains (pathJoin folder filename) = true) :
    ∃ k, 1 ≤ k ∧
      resolveCollision fs folder filename = destCandidate folder filename k := by
  unfold resolveCollision
  simp only [h, if_true]
  exact findFreeFrom_shape fs folder filename (fs.length + 1) 1

theorem dictMember_insert_self (k v : String) (d : List (String × String)) :
    dictMember k (dictInsert k v d) = true := by
  unfold dictInsert
  by_cases h : dictMember k d = true
  · simp only [h, if_true]
    unfold dictMember at h ⊢
    rw [List.any_eq_true] at h
    obtain ⟨e, he, hek⟩ := h
    rw [List.any_eq_true]
    exact ⟨(k, v), List.mem_map.mpr ⟨e, he, by simp [hek]⟩, by simp⟩
  · simp only [Bool.not_eq_true] at h
    simp only [h, Bool.false_eq_true, if_false]
    unfold dictMember
    rw [List.any_append]
    simp

theorem any_map_replace (k k2 v : String) (hne : k ≠ k2) :
    ∀ d : List (String × String),
      ((d.map fun e => if e.1 == k2 then (k2, v) else e).any fun e => e.1 == k) =
        (d.any fun e => e.1 == k) := by
  intro d
  induction d with
  | nil => rfl
  | cons e rest ih =>
    simp only [List.map_cons, List.any_cons, ih]
    congr 1
    by_cases he : (e.1 == k2) = true
    · have he2 : e.1 = k2 := by simpa using he
      simp [he, he2, Ne.symm hne]
    · simp only [Bool.not_eq_true] at he
      simp [he]

theorem dictMember_insert_ne (k k2 v : String) (d : List (String × String))
    (hne : k ≠ k2) :
    dictMember k (dictInsert k2 v d) = dictMember k d := by
  unfold dictInsert
  by_cases h : dictMember k2 d = true
  · simp only [h, if_true]
    unfold dictMember
    exact any_map_replace k k2 v hne d
  · simp only [Bool.not_eq_true] at h
    simp only [h, Bool.false_eq_true, if_false]
    unfold dictMember
    rw [List.any_append]
    have h2 : (k2 == k) = false := by
      simpa using Ne.symm hne
    simp [h2]

theorem dictMember_insert_mono (k k2 v : String) (d : List (String × String))
    (h : dictMember k d = true) :
    dictMember k (dictInsert k2 v d) = true := by
  by_cases he : k = k2
  · subst he
    exact dictMember_insert_self k v d
  · rw [dictMember_insert_ne k k2 v d he]
    exact h

theorem stepLulo_stats (hasPIL force_all : Bool) (sd ls : Option DateTime)
    (dd : String) (env : WalkEnv) (f : SrcFile) :
    ((stepLulo hasPIL force_all sd ls dd env f).1).stats.total_found
        = env.stats.total_found + 1 ∧
      ((stepLulo hasPIL force_all sd ls dd env f).1).stats.copied
          + ((stepLulo hasPIL force_all sd ls dd env f).1).stats.skipped
          + ((stepLulo hasPIL force_all sd ls dd env f).1).stats.errors
        = env.stats.copied + env.stats.skipped + env.stats.errors + 1 := by
  simp only [stepLulo]
  split
  · simp <;> omega
  · split
    · simp <;> omega
    · split
      · simp <;> omega
      · simp <;> omega

theorem stepLulo_member_mono (k : String) (hasPIL force_all : Bool)
    (sd ls : Option DateTime) (dd : String) (env : WalkEnv) (f : SrcFile)
    (h : dictMember k env.copied_files = true) :
    dictMember k ((stepLulo hasPIL force_all sd ls dd env f).1).copied_files = true := by
  simp only [stepLulo]
  split
  · exact h
  · split
    · exact h
    · split
      · exact h
      · exact dictMember_insert_mono k f.relKey (isoformat (get_photo_date hasPIL f)) env.copied_files h

theorem stepLulo_key_after (hasPIL force_all : Bool) (ls : Option DateTime)
    (dd : String) (env : WalkEnv) (f : SrcFile) (hcf : f.copyFails = false) :
    dictMember f.relKey ((stepLulo hasPIL force_all none ls dd env f).1).copied_files = true := by
  simp only [stepLulo]
  split
  · next hfloor => exact absurd hfloor (by simp)
  · split
    · next hcond =>
      simp only [Bool.and_eq_true] at hcond
      exact hcond.2
    · split
      · next hfail => rw [hcf] at hfail; cases hfail
      · exact dictMember_insert_self f.relKey (isoformat (get_photo_date hasPIL f)) env.copied_files

theorem stepLulo_state_skip (hasPIL : Bool) (t : DateTime) (dd : String)
    (env : WalkEnv) (f : SrcFile) (hm : f.mtime.leb t = true)
    (hmem : dictMember f.relKey env.copied_files = true) :
    stepLulo hasPIL false none (some t) dd env f =
      ({ env with stats := { env.stats with
          total_found := env.stats.total_found + 1,
          skipped := env.stats.skipped + 1 } }, .skippedState) := by
  simp only [stepLulo, hm, hmem, Option.isNone_none, Bool.not_false, Bool.and_true,
    Bool.true_and, Bool.and_self, Bool.false_eq_true, if_true, if_false]

theorem stepLulo_spec (hasPIL force_all : Bool) (sd ls : Option DateTime)
    (dd : String) (env : WalkEnv) (f : SrcFile) :
    ((match sd with
      | some d => (get_photo_date hasPIL f).ltb d
      | none => false) = true ∧
      stepLulo hasPIL force_all sd ls dd env f =
        ({ env with stats := { env.stats with
            total_found := env.stats.total_found + 1,
            skipped := env.stats.skipped + 1 } }, .skippedFloor)) ∨
    ((match sd with
      | some d => (get_photo_date hasPIL f).ltb d
      | none => false) = false ∧
      (!force_all && sd.isNone &&
        (match ls with
         | some t => f.mtime.leb t
         | none => false) &&
        dictMember f.relKey env.copied_files) = true ∧
      stepLulo hasPIL force_all sd ls dd env f =
        ({ env with stats := { env.stats with
            total_found := env.stats.total_found + 1,
            skipped := env.stats.skipped + 1 } }, .skippedState)) ∨
    ((match sd with
      | some d => (get_photo_date hasPIL f).ltb d
      | none => false) = false ∧
      (!force_all && sd.isNone &&
        (match ls with
         | some t => f.mtime.leb t
         | none => false) &&
        dictMember f.relKey env.copied_files) = false ∧
      f.copyFails = true ∧
      stepLulo hasPIL force_all sd ls dd env f =
        ({ env with stats := { env.stats with
            total_found := env.stats.total_found + 1,
            errors := env.stats.errors + 1 } }, .errored)) ∨
    ((match sd with
      | some d => (get_photo_date hasPIL f).ltb d
      | none => false) = false ∧
      (!force_all && sd.isNone &&
        (match ls with
         | some t => f.mtime.leb t
         | none => false) &&
        dictMember f.relKey env.copied_files) = false ∧
      f.copyFails = false ∧
      stepLulo hasPIL force_all sd ls dd env f =
        ({ copied_files := dictInsert f.relKey (isoformat (get_photo_date hasPIL f)) env.copied_files,
           destFS := resolveCollision env.destFS
             (pathJoin dd (strftime_yymmdd (get_photo_date hasPIL f))) f.filename :: env.destFS,
           stats := { env.stats with
             total_found := env.stats.total_found + 1,
             copied := env.stats.copied + 1 } }, .copiedOk)) := by
  by_cases hF : (match sd with
      | some d => (get_photo_date hasPIL f).ltb d
      | none => false) = true
  · left
    exact ⟨hF, by simp only [stepLulo, hF, if_true]⟩
  · simp only [Bool.not_eq_true] at hF
    right
    by_cases hS : (!force_all && sd.isNone &&
        (match ls with
         | some t => f.mtime.leb t
         | none => false) &&
        dictMember f.relKey env.copied_files) = true
    · left
      exact ⟨hF, hS, by simp only [stepLulo, hF, hS, Bool.false_eq_true, if_false, if_true]⟩
    · simp only [Bool.not_eq_true] at hS
      right
      by_cases hC : f.copyFails = true
      · left
        exact ⟨hF, hS, hC,
          by simp only [stepLulo, hF, hS, hC, Bool.false_eq_true, if_false, if_true]⟩
      · simp only [Bool.not_eq_true] at hC
        right
        exact ⟨hF, hS, hC,
          by simp only [stepLulo, hF, hS, hC, Bool.false_eq_true, if_false, if_true]⟩

theorem runWalkLulo_nil (hasPIL force_all : Bool) (sd ls : Option DateTime)
    (dd : String) (env : WalkEnv) :
    runWalkLulo hasPIL force_all sd ls dd [] env = env := rfl

theorem runWalkLulo_cons (hasPIL force_all : Bool) (sd ls : Option DateTime)
    (dd : String) (f : SrcFile) (files : List SrcFile) (env : WalkEnv) :
    runWalkLulo hasPIL force_all sd ls dd (f :: files) env =
      runWalkLulo hasPIL force_all sd ls dd files
        (if is_image_file f.filename then (stepLulo hasPIL force_all sd ls dd env f).1
         else env) := rfl

theorem runWalkLulo_append (hasPIL force_all : Bool) (sd ls : Option DateTime)
    (dd : String) (xs ys : List SrcFile) (env : WalkEnv) :
    runWalkLulo hasPIL force_all sd ls dd (xs ++ ys) env =
      runWalkLulo hasPIL force_all sd ls dd ys
        (runWalkLulo hasPIL force_all sd ls dd xs env) := by
  simp [runWalkLulo, List.foldl_append]

theorem runWalkLulo_member_mono (k : String) (hasPIL force_all : Bool)
    (sd ls : Option DateTime) (dd : String) (files : List SrcFile) :
    ∀ env : WalkEnv, dictMember k env.copied_files = true →
      dictMember k ((runWalkLulo hasPIL force_all sd ls dd files env).copied_files) = true := by
  induction files with
  | nil => intro env h; exact h
  | cons g rest ih =>
    intro env h
    rw [runWalkLulo_cons]
    by_cases hg : is_image_file g.filename = true
    · simp only [hg, if_true]
      exact ih _ (stepLulo_member_mono k hasPIL force_all sd ls dd env g h)
    · simp only [Bool.not_eq_true] at hg
      simp only [hg, Bool.false_eq_true, if_false]
      exact ih env h

theorem runWalkLulo_covers (hasPIL force_all : Bool) (ls : Option DateTime)
    (dd : String) (files : List SrcFile) :
    ∀ (env : WalkEnv) (f : SrcFile), f ∈ files → is_image_file f.filename = true →
      f.copyFails = false →
      dictMember f.relKey
        ((runWalkLulo hasPIL force_all none ls dd files env).copied_files) = true := by
  induction files with
  | nil => intro env f hf; cases hf
  | cons g rest ih =>
    intro env f hf himg hcf
    rw [runWalkLulo_cons]
    rcases List.mem_cons.mp hf with hfg | hfr
    · subst hfg
      simp only [himg, if_true]
      exact runWalkLulo_member_mono f.relKey hasPIL force_all none ls dd rest _
        (stepLulo_key_after hasPIL force_all ls dd env f hcf)
    · by_cases hg : is_image_file g.filename = true
      · simp only [hg, if_true]
        exact ih _ f hfr himg hcf
      · simp only [Bool.not_eq_true] at hg
        simp only [hg, Bool.false_eq_true, if_false]
        exact ih env f hfr himg hcf

theorem runWalkLulo_all_skip (hasPIL : Bool) (t : DateTime) (dd : String)
    (files : List SrcFile) :
    ∀ env : WalkEnv,
      (∀ f ∈ files, is_image_file f.filename = true →
        f.mtime.leb t = true ∧ dictMember f.relKey env.copied_files = true) →
      (runWalkLulo hasPIL false none (some t) dd files env).stats.copied
          = env.stats.copied ∧
        (runWalkLulo hasPIL false none (some t) dd files env).stats.skipped
            + env.stats.total_found
          = (runWalkLulo hasPIL false none (some t) dd files env).stats.total_found
            + env.stats.skipped ∧
        (runWalkLulo hasPIL false none (some t) dd files env).copied_files
          = env.copied_files := by
  induction files with
  | nil =>
    intro env h
    rw [runWalkLulo_nil]
    exact ⟨rfl, by omega, rfl⟩
  | cons g rest ih =>
    intro env h
    rw [runWalkLulo_cons]
    by_cases hg : is_image_file g.filename = true
    · simp only [hg, if_true]
      obtain ⟨hleb, hmem⟩ := h g (List.mem_cons_self g rest) hg
      rw [stepLulo_state_skip hasPIL t dd env g hleb hmem]
      have ih2 := ih { env with stats := { env.stats with
          total_found := env.stats.total_found + 1,
          skipped := env.stats.skipped + 1 } }
        (by
          intro f hf himg
          exact h f (List.mem_cons_of_mem g hf) himg)
      obtain ⟨h1, h2, h3⟩ := ih2
      refine ⟨h1, by simp only at h2 ⊢; omega, h3⟩
    · simp only [Bool.not_eq_true] at hg
      simp only [hg, Bool.false_eq_true, if_false]
      exact ih env (fun f hf himg => h f (List.mem_cons_of_mem g hf) himg)

theorem runWalkLulo_stats (hasPIL force_all : Bool) (sd ls : Option DateTime)
    (dd : String) (files : List SrcFile) :
    ∀ env : WalkEnv,
      (runWalkLulo hasPIL force_all sd ls dd files env).stats.total_found
          + (env.stats.copied + env.stats.skipped + env.stats.errors)
        = env.stats.total_found
          + ((runWalkLulo hasPIL force_all sd ls dd files env).stats.copied
            + (runWalkLulo hasPIL force_all sd ls dd files env).stats.skipped
            + (runWalkLulo hasPIL force_all sd ls dd files env).stats.errors) := by
  induction files with
  | nil =>
    intro env
    rw [runWalkLulo_nil]
  | cons g rest ih =>
    intro env
    rw [runWalkLulo_cons]
    by_cases hg : is_image_file g.filename = true
    · simp only [hg, if_true]
      have hs := stepLulo_stats hasPIL force_all sd ls dd env g
      have ih2 := ih (stepLulo hasPIL force_all sd ls dd env g).1
      omega
    · simp only [Bool.not_eq_true] at hg
      simp only [hg, Bool.false_eq_true, if_false]
      exact ih env

theorem runWalkLulo_filter (hasPIL force_all : Bool) (sd ls : Option DateTime)
    (dd : String) (files : List SrcFile) :
    ∀ env : WalkEnv,
      runWalkLulo hasPIL force_all sd ls dd files env =
        runWalkLulo hasPIL force_all sd ls dd
          (files.filter fun f => is_image_file f.filename) env := by
  induction files with
  | nil => intro env; rfl
  | cons g rest ih =>
    intro env
    rw [runWalkLulo_cons]
    by_cases hg : is_image_file g.filename = true
    · rw [List.filter_cons_of_pos (by simp [hg])]
      simp only [hg, if_true]
      rw [runWalkLulo_cons]
      simp only [hg, if_true]
      exact ih _
    · simp only [Bool.not_eq_true] at hg
      rw [List.filter_cons_of_neg (by simp [hg])]
      simp only [hg, Bool.false_eq_true, if_false]
      exact ih env

theorem stepLulo_destFS_cases (hasPIL force_all : Bool) (sd ls : Option DateTime)
    (dd : String) (env : WalkEnv) (f : SrcFile) :
    (stepLulo hasPIL force_all sd ls dd env f).1.destFS = env.destFS ∨
      (stepLulo hasPIL force_all sd ls dd env f).1.destFS =
        resolveCollision env.destFS
          (pathJoin dd (strftime_yymmdd (get_photo_date hasPIL f))) f.filename :: env.destFS := by
  simp only [stepLulo]
  split
  · left; rfl
  · split
    · left; rfl
    · split
      · left; rfl
      · right; rfl

theorem runWalkLulo_destFS (hasPIL force_all : Bool) (sd ls : Option DateTime)
    (dd : String) (files : List SrcFile) :
    ∀ env : WalkEnv, env.destFS.Nodup →
      (runWalkLulo hasPIL force_all sd ls dd files env).destFS.Nodup ∧
        env.destFS ⊆ (runWalkLulo hasPIL force_all sd ls dd files env).destFS := by
  induction files with
  | nil => intro env h; exact ⟨h, fun x hx => hx⟩
  | cons g rest ih =>
    intro env h
    rw [runWalkLulo_cons]
    by_cases hg : is_image_file g.filename = true
    · simp only [hg, if_true]
      rcases stepLulo_destFS_cases hasPIL force_all sd ls dd env g with hd | hd
      · obtain ⟨h1, h2⟩ := ih ((stepLulo hasPIL force_all sd ls dd env g).1)
          (by rw [hd]; exact h)
        refine ⟨h1, fun x hx => h2 ?_⟩
        rw [hd]
        exact hx
      · have hnm : resolveCollision env.destFS
            (pathJoin dd (strftime_yymmdd (get_photo_date hasPIL g))) g.filename ∉ env.destFS :=
          (contains_false_iff _ _).mp (resolveCollision_not_mem _ _ _)
        obtain ⟨h1, h2⟩ := ih ((stepLulo hasPIL force_all sd ls dd env g).1)
          (by rw [hd]; exact List.nodup_cons.mpr ⟨hnm, h⟩)
        refine ⟨h1, fun x hx => h2 ?_⟩
        rw [hd]
        exact List.mem_cons_of_mem _ hx
    · simp only [Bool.not_eq_true] at hg
      simp only [hg, Bool.false_eq_true, if_false]
      exact ih env h

theorem stepLulo_none_eq_stepBak (hasPIL force_all : Bool) (ls : Option DateTime)
    (dd : String) (env : WalkEnv) (f : SrcFile) :
    stepLulo hasPIL force_all none ls dd env f = stepBak hasPIL force_all ls dd env f := by
  simp only [stepLulo, stepBak, Option.isNone_none, Bool.and_true, Bool.true_and,
    Bool.false_eq_true, if_false]

theorem runWalk_none_eq_bak (hasPIL force_all : Bool) (ls : Option DateTime)
    (dd : String) (files : List SrcFile) (env : WalkEnv) :
    runWalkLulo hasPIL force_all none ls dd files env =
      runWalkBak hasPIL force_all ls dd files env := by
  unfold runWalkLulo runWalkBak
  congr 1
  funext e f
  rw [stepLulo_none_eq_stepBak]

theorem examineExif_eq_findSome (l : List (String × String)) :
    examineExif l = l.findSome? (fun e =>
      if e.1 = "DateTimeOriginal" ∨ e.1 = "DateTime" ∨ e.1 = "DateTimeDigitized"
      then parseExifDT e.2 else none) := by
  induction l with
  | nil => rfl
  | cons e rest ih =>
    obtain ⟨tag, v⟩ := e
    by_cases ht : tag = "DateTimeOriginal" ∨ tag = "DateTime" ∨ tag = "DateTimeDigitized"
    · simp only [examineExif, ht, if_true, List.findSome?_cons]
      cases hp : parseExifDT v
      · simpa [hp] using ih
      · simp [hp]
    · simp only [examineExif, ht, if_false, List.findSome?_cons]
      simpa [ht] using ih

theorem stepLulo_floor_skip (hasPIL force_all : Bool) (ls : Option DateTime)
    (dd : String) (env : WalkEnv) (f : SrcFile) (fd : DateTime)
    (hdate : (get_photo_date hasPIL f).ltb fd = true) :
    stepLulo hasPIL force_all (some fd) ls dd env f =
      ({ env with stats := { env.stats with
          total_found := env.stats.total_found + 1,
          skipped := env.stats.skipped + 1 } }, .skippedFloor) := by
  simp only [stepLulo, hdate, if_true]

theorem stepLulo_copied_cases (hasPIL force_all : Bool) (sd ls : Option DateTime)
    (dd : String) (env : WalkEnv) (f : SrcFile) :
    (stepLulo hasPIL force_all sd ls dd env f).1.copied_files = env.copied_files ∨
      (stepLulo hasPIL force_all sd ls dd env f).1.copied_files =
        dictInsert f.relKey (isoformat (get_photo_date hasPIL f)) env.copied_files := by
  simp only [stepLulo]
  split
  · left; rfl
  · split
    · left; rfl
    · split
      · left; rfl
      · right; rfl

theorem runWalkLulo_floor_key_preserved (hasPIL force_all : Bool) (ls : Option DateTime)
    (dd : String) (fd : DateTime) (k : String) (files : List SrcFile) :
    ∀ env : WalkEnv,
      (∀ g ∈ files, is_image_file g.filename = true → g.relKey = k →
        (get_photo_date hasPIL g).ltb fd = true) →
      dictMember k env.copied_files = false →
      dictMember k
        ((runWalkLulo hasPIL force_all (some fd) ls dd files env).copied_files) = false := by
  induction files with
  | nil =>
    intro env _ h
    rw [runWalkLulo_nil]
    exact h
  | cons g rest ih =>
    intro env hbelow h
    rw [runWalkLulo_cons]
    by_cases hg : is_image_file g.filename = true
    · simp only [hg, if_true]
      by_cases hlt : (get_photo_date hasPIL g).ltb fd = true
      · rw [stepLulo_floor_skip hasPIL force_all ls dd env g fd hlt]
        exact ih _ (fun x hx => hbelow x (List.mem_cons_of_mem g hx)) h
      · have hne : k ≠ g.relKey := by
          intro he
          exact hlt (hbelow g (List.mem_cons_self g rest) hg he.symm)
        refine ih _ (fun x hx => hbelow x (List.mem_cons_of_mem g hx)) ?_
        rcases stepLulo_copied_cases hasPIL force_all (some fd) ls dd env g with hc | hc
        · rw [hc]; exact h
        · rw [hc, dictMember_insert_ne k g.relKey _ _ hne]
          exact h
    · simp only [Bool.not_eq_true] at hg
      simp only [hg, Bool.false_eq_true, if_false]
      exact ih env (fun x hx => hbelow x (List.mem_cons_of_mem g hx)) h

theorem objGet_hasKey (k : String) (l : List (String × PVal)) (v : PVal)
    (h : objGet k l = some v) : objHasKey k l = true := by
  induction l with
  | nil => cases h
  | cons e rest ih =>
    simp only [objGet] at h
    simp only [objHasKey]
    by_cases he : (e.1 == k) = true
    · simp [he]
    · simp only [Bool.not_eq_true] at he
      rw [he] at h ⊢
      simp only [Bool.false_eq_true, if_false] at h
      simp only [Bool.false_or]
      exact ih h

/-- C2: a discovered image file is classified skipped by the
already-synced rule exactly when `forceAll` is false, `dateFloor` is
unset, `last_sync` exists, the file's modification time is at most
`last_sync`, and its relative key is present in `copied_files`; in
particular the state-based skip path is never taken when a date floor is
set, so the two skip paths are mutually exclusive. -/
theorem state_skip_rule_iff (hasPIL force_all : Bool) (sd ls : Option DateTime)
    (dd : String) (env : WalkEnv) (f : SrcFile) :
    (stepLulo hasPIL force_all sd ls dd env f).2 = Outcome.skippedState ↔
      (force_all = false ∧ sd = none ∧
        ∃ t, ls = some t ∧ f.mtime.leb t = true ∧
          dictMember f.relKey env.copied_files = true) := by
  rcases stepLulo_spec hasPIL force_all sd ls dd env f with
    ⟨hF, heq⟩ | ⟨hF, hS, heq⟩ | ⟨hF, hS, hC, heq⟩ | ⟨hF, hS, hC, heq⟩
  · rw [heq]
    constructor
    · intro h
      exact absurd h (by simp)
    · rintro ⟨hfa, hsd, _⟩
      subst hsd
      simp at hF
  · rw [heq]
    constructor
    · intro _
      simp only [Bool.and_eq_true] at hS
      obtain ⟨⟨⟨h1, h2⟩, h3⟩, h4⟩ := hS
      refine ⟨by simpa using h1, Option.isNone_iff_eq_none.mp h2, ?_⟩
      cases ls with
      | none => cases h3
      | some t => exact ⟨t, rfl, h3, h4⟩
    · intro _
      rfl
  · rw [heq]
    constructor
    · intro h
      exact absurd h (by simp)
    · rintro ⟨hfa, hsd, t, hls, hleb, hmem⟩
      subst hsd
      subst hls
      rw [hfa] at hS
      simp [hleb, hmem] at hS
  · rw [heq]
    constructor
    · intro h
      exact absurd h (by simp)
    · rintro ⟨hfa, hsd, t, hls, hleb, hmem⟩
      subst hsd
      subst hls
      rw [hfa] at hS
      simp [hleb, hmem] at hS

/-- C5: `get_photo_date` never fails and always returns a date: it
returns the first EXIF field among the three capture-time candidates, in
encounter order within the metadata, whose value parses in the fixed
format, and falls back to the filesystem modification time when
metadata is absent, the file is not a readable image, or no candidate
parses (and always when PIL is unavailable). -/
theorem date_resolver_spec (hasPIL : Bool) (f : SrcFile) :
    get_photo_date hasPIL f =
      (if hasPIL then
        match f.exif with
        | some es =>
          (es.findSome? (fun e =>
            if e.1 = "DateTimeOriginal" ∨ e.1 = "DateTime" ∨ e.1 = "DateTimeDigitized"
            then parseExifDT e.2 else none)).getD f.mtime
        | none => f.mtime
      else f.mtime) := by
  cases hasPIL with
  | false => rfl
  | true =>
    cases hex : f.exif with
    | none => simp [get_photo_date, hex]
    | some es =>
      simp only [get_photo_date, hex, if_true]
      rw [← examineExif_eq_findSome]
      cases hfs : examineExif es with
      | none => simp [hfs]
      | some d => simp [hfs]

/-- C6: with no date floor configured, the per-file loop body of the
baseline variant (`bak-foto.py`, which resolves the photo date only
after the already-synced check) and of the date-floor variant
(`lulofoto.py`, which resolves it before any skip decision) are equal,
and the two `organize_photos` runs produce the same observable result:
same statistics, same saved state, same destination file set. -/
theorem variant_equivalence :
    (∀ (hasPIL force_all : Bool) (ls : Option DateTime) (dd : String)
        (env : WalkEnv) (f : SrcFile),
      stepLulo hasPIL force_all none ls dd env f = stepBak hasPIL force_all ls dd env f) ∧
    (∀ (hasPIL sourceExists : Bool) (dd : String) (files : List SrcFile)
        (st : SyncSt) (force_all : Bool) (destFS0 : List String) (endTime : DateTime),
      organize_photos hasPIL sourceExists dd files st force_all none destFS0 endTime =
        organize_photos_bak hasPIL sourceExists dd files st force_all destFS0 endTime) := by
  constructor
  · intro hasPIL force_all ls dd env f
    exact stepLulo_none_eq_stepBak hasPIL force_all ls dd env f
  · intro hasPIL sourceExists dd files st force_all destFS0 endTime
    unfold organize_photos organize_photos_bak
    cases sourceExists with
    | false => rfl
    | true =>
      simp only [Bool.not_true, Bool.false_eq_true, if_false]
      rw [runWalk_none_eq_bak]

/-- C7: any copy exception for a single file is caught, counted in
`errors` and changes nothing else, the walk continues over the remaining
files regardless of earlier outcomes, and the process exits with code 0
whenever the walk completed (even with per-file errors) and with code 1
when the source directory does not exist. -/
theorem error_containment_and_exit :
    (∀ (hasPIL : Bool) (dd : String) (files : List SrcFile) (st : SyncSt)
        (force_all : Bool) (sd : Option DateTime) (d0 : List String) (e : DateTime),
      mainExit hasPIL true dd files st force_all sd d0 e = 0) ∧
    (∀ (hasPIL : Bool) (dd : String) (files : List SrcFile) (st : SyncSt)
        (force_all : Bool) (sd : Option DateTime) (d0 : List String) (e : DateTime),
      mainExit hasPIL false dd files st force_all sd d0 e = 1) ∧
    (∀ (hasPIL force_all : Bool) (sd ls : Option DateTime) (dd : String)
        (env : WalkEnv) (f : SrcFile),
      (stepLulo hasPIL force_all sd ls dd env f).2 = Outcome.errored →
        (stepLulo hasPIL force_all sd ls dd env f).1 =
          { env with stats := { env.stats with
              total_found := env.stats.total_found + 1,
              errors := env.stats.errors + 1 } }) ∧
    (∀ (hasPIL force_all : Bool) (sd ls : Option DateTime) (dd : String)
        (xs ys : List SrcFile) (env : WalkEnv),
      runWalkLulo hasPIL force_all sd ls dd (xs ++ ys) env =
        runWalkLulo hasPIL force_all sd ls dd ys
          (runWalkLulo hasPIL force_all sd ls dd xs env)) := by
  refine ⟨?_, ?_, ?_, ?_⟩
  · intro hasPIL dd files st force_all sd d0 e
    simp [mainExit, organize_photos]
  · intro hasPIL dd files st force_all sd d0 e
    simp [mainExit, organize_photos]
  · intro hasPIL force_all sd ls dd env f h
    rcases stepLulo_spec hasPIL force_all sd ls dd env f with
      ⟨_, heq⟩ | ⟨_, _, heq⟩ | ⟨_, _, _, heq⟩ | ⟨_, _, _, heq⟩
    · rw [heq] at h
      exact absurd h (by simp)
    · rw [heq] at h
      exact absurd h (by simp)
    · rw [heq]
    · rw [heq] at h
      exact absurd h (by simp)
  · intro hasPIL force_all sd ls dd xs ys env
    exact runWalkLulo_append hasPIL force_all sd ls dd xs ys env

/-- C7 witness: a concrete file whose copy fails is classified as an
error, leaves the state and destination untouched, and concrete exit
codes are 0 with the source present and 1 without it. -/
theorem error_containment_and_exit_witness :
    (stepLulo true false none none "d"
        ⟨[], [], ⟨0, 0, 0, 0⟩⟩
        ⟨"a.jpg", "a.jpg", ⟨2025, 1, 10, 0, 0, 0⟩, none, true⟩).2 = Outcome.errored ∧
    (stepLulo true false none none "d"
        ⟨[], [], ⟨0, 0, 0, 0⟩⟩
        ⟨"a.jpg", "a.jpg", ⟨2025, 1, 10, 0, 0, 0⟩, none, true⟩).1 =
      { copied_files := [], destFS := [],
        stats := { total_found := 1, copied := 0, skipped := 0, errors := 1 } } ∧
    mainExit true true "d" [] ⟨none, []⟩ false none [] ⟨2025, 1, 1, 0, 0, 0⟩ = 0 ∧
    mainExit true false "d" [] ⟨none, []⟩ false none [] ⟨2025, 1, 1, 0, 0, 0⟩ = 1 := by
  refine ⟨by decide, ?_, ?_, ?_⟩
  · exact error_containment_and_exit.2.2.1 true false none none "d"
      ⟨[], [], ⟨0, 0, 0, 0⟩⟩
      ⟨"a.jpg", "a.jpg", ⟨2025, 1, 10, 0, 0, 0⟩, none, true⟩ (by decide)
  · exact error_containment_and_exit.1 true "d" [] ⟨none, []⟩ false none []
      ⟨2025, 1, 1, 0, 0, 0⟩
  · exact error_containment_and_exit.2.1 true "d" [] ⟨none, []⟩ false none []
      ⟨2025, 1, 1, 0, 0, 0⟩

/-- C9: the destination bucket folder name is the resolved photo date
rendered as the six-digit zero-padded `YYMMDD` code (for any in-range
month and day), consists of digits only, depends only on the resolved
date and not on the file's location in the source tree, and every copy
writes into `destRoot/YYMMDD-of-the-resolved-date`. -/
theorem bucketing_yymmdd :
    (∀ d : DateTime, d.month < 100 → d.day < 100 → (strftime_yymmdd d).length = 6) ∧
    (∀ d : DateTime, d.month < 100 → d.day < 100 →
      ∀ c ∈ (strftime_yymmdd d).data, c.isDigit = true) ∧
    (∀ (hasPIL : Bool) (f : SrcFile) (k : String),
      get_photo_date hasPIL { f with relKey := k } = get_photo_date hasPIL f) ∧
    (∀ (hasPIL force_all : Bool) (sd ls : Option DateTime) (dd : String)
        (env : WalkEnv) (f : SrcFile),
      (stepLulo hasPIL force_all sd ls dd env f).2 = Outcome.copiedOk →
        (stepLulo hasPIL force_all sd ls dd env f).1.destFS =
          resolveCollision env.destFS
            (pathJoin dd (strftime_yymmdd (get_photo_date hasPIL f))) f.filename ::
            env.destFS) := by
  refine ⟨?_, ?_, ?_, ?_⟩
  · intro d hm hd
    have hy : d.year % 100 < 100 := Nat.mod_lt _ (by omega)
    simp only [strftime_yymmdd, String.length_append]
    rw [pad2_length _ hy, pad2_length _ hm, pad2_length _ hd]
  · intro d hm hd c hc
    have hy : d.year % 100 < 100 := Nat.mod_lt _ (by omega)
    simp only [strftime_yymmdd, String.data_append, List.mem_append] at hc
    rcases hc with (hc | hc) | hc
    · exact pad2_digits _ hy c hc
    · exact pad2_digits _ hm c hc
    · exact pad2_digits _ hd c hc
  · intro hasPIL f k
    rfl
  · intro hasPIL force_all sd ls dd env f h
    rcases stepLulo_spec hasPIL force_all sd ls dd env f with
      ⟨_, heq⟩ | ⟨_, _, heq⟩ | ⟨_, _, _, heq⟩ | ⟨_, _, _, heq⟩
    · rw [heq] at h
      exact absurd h (by simp)
    · rw [heq] at h
      exact absurd h (by simp)
    · rw [heq] at h
      exact absurd h (by simp)
    · rw [heq]

/-- C9 witness: a concrete date (2025-01-18) buckets to the six-digit
code `250118`, and a concrete copy writes below that bucket. -/
theorem bucketing_yymmdd_witness :
    (strftime_yymmdd ⟨2025, 1, 18, 14, 30, 45⟩).length = 6 ∧
    (stepLulo true false none none "dest"
        ⟨[], [], ⟨0, 0, 0, 0⟩⟩
        ⟨"a.jpg", "a.jpg", ⟨2025, 1, 18, 14, 30, 45⟩, none, false⟩).1.destFS =
      resolveCollision []
        (pathJoin "dest" (strftime_yymmdd
          (get_photo_date true ⟨"a.jpg", "a.jpg", ⟨2025, 1, 18, 14, 30, 45⟩, none, false⟩)))
        "a.jpg" :: [] := by
  refine ⟨bucketing_yymmdd.1 ⟨2025, 1, 18, 14, 30, 45⟩ (by decide) (by decide), ?_⟩
  exact bucketing_yymmdd.2.2.2 true false none none "dest"
    ⟨[], [], ⟨0, 0, 0, 0⟩⟩
    ⟨"a.jpg", "a.jpg", ⟨2025, 1, 18, 14, 30, 45⟩, none, false⟩ (by decide)

/-- C10: at the end of every run the statistics satisfy
`total_found = copied + skipped + errors`, and the walk is unchanged by
discarding the files that do not carry an allow-listed image extension
(they touch no counter at all). -/
theorem stats_accounting :
    (∀ (hasPIL sourceExists : Bool) (dd : String) (files : List SrcFile) (st : SyncSt)
        (force_all : Bool) (sd : Option DateTime) (d0 : List String) (e : DateTime),
      (organize_photos hasPIL sourceExists dd files st force_all sd d0 e).stats.total_found =
        (organize_photos hasPIL sourceExists dd files st force_all sd d0 e).stats.copied +
          (organize_photos hasPIL sourceExists dd files st force_all sd d0 e).stats.skipped +
          (organize_photos hasPIL sourceExists dd files st force_all sd d0 e).stats.errors) ∧
    (∀ (hasPIL force_all : Bool) (sd ls : Option DateTime) (dd : String)
        (files : List SrcFile) (env : WalkEnv),
      runWalkLulo hasPIL force_all sd ls dd files env =
        runWalkLulo hasPIL force_all sd ls dd
          (files.filter fun f => is_image_file f.filename) env) := by
  constructor
  · intro hasPIL sourceExists dd files st force_all sd d0 e
    cases sourceExists with
    | false => simp [organize_photos]
    | true =>
      simp only [organize_photos, Bool.not_true, Bool.false_eq_true, if_false]
      have hw := runWalkLulo_stats hasPIL force_all sd st.last_sync dd files
        ⟨st.copied_files, d0, ⟨0, 0, 0, 0⟩⟩
      simp only at hw
      omega
  · intro hasPIL force_all sd ls dd files env
    exact runWalkLulo_filter hasPIL force_all sd ls dd files env

theorem exc_bind_ok {α β : Type} (a : α) (f : α → Except Unit β) :
    (Except.ok a : Except Unit α) >>= f = f a := rfl

theorem exc_bind_err {α β : Type} (f : α → Except Unit β) :
    (Except.error () : Except Unit α) >>= f = Except.error () := rfl

/-- C1 counterexample: a first run that completes (state saved, success
returned) but records one copy error does not make the second run over
the unchanged tree skip everything: the failed file was never recorded
in `copied_files`, so the second run re-attempts it and `skipped`
differs from `total_found`. -/
theorem idempotence_counterexample :
    (organize_photos true true "d"
        [⟨"a.jpg", "a.jpg", ⟨2025, 1, 10, 0, 0, 0⟩, none, true⟩]
        ⟨none, []⟩ false none [] ⟨2025, 2, 1, 0, 0, 0⟩).success = true ∧
      ¬ ((organize_photos true true "d"
            [⟨"a.jpg", "a.jpg", ⟨2025, 1, 10, 0, 0, 0⟩, none, true⟩]
            (organize_photos true true "d"
              [⟨"a.jpg", "a.jpg", ⟨2025, 1, 10, 0, 0, 0⟩, none, true⟩]
              ⟨none, []⟩ false none [] ⟨2025, 2, 1, 0, 0, 0⟩).state
            false none
            (organize_photos true true "d"
              [⟨"a.jpg", "a.jpg", ⟨2025, 1, 10, 0, 0, 0⟩, none, true⟩]
              ⟨none, []⟩ false none [] ⟨2025, 2, 1, 0, 0, 0⟩).destFS
            ⟨2025, 2, 2, 0, 0, 0⟩).stats.copied = 0 ∧
          (organize_photos true true "d"
            [⟨"a.jpg", "a.jpg", ⟨2025, 1, 10, 0, 0, 0⟩, none, true⟩]
            (organize_photos true true "d"
              [⟨"a.jpg", "a.jpg", ⟨2025, 1, 10, 0, 0, 0⟩, none, true⟩]
              ⟨none, []⟩ false none [] ⟨2025, 2, 1, 0, 0, 0⟩).state
            false none
            (organize_photos true true "d"
              [⟨"a.jpg", "a.jpg", ⟨2025, 1, 10, 0, 0, 0⟩, none, true⟩]
              ⟨none, []⟩ false none [] ⟨2025, 2, 1, 0, 0, 0⟩).destFS
            ⟨2025, 2, 2, 0, 0, 0⟩).stats.skipped =
          (organize_photos true true "d"
            [⟨"a.jpg", "a.jpg", ⟨2025, 1, 10, 0, 0, 0⟩, none, true⟩]
            (organize_photos true true "d"
              [⟨"a.jpg", "a.jpg", ⟨2025, 1, 10, 0, 0, 0⟩, none, true⟩]
              ⟨none, []⟩ false none [] ⟨2025, 2, 1, 0, 0, 0⟩).state
            false none
            (organize_photos true true "d"
              [⟨"a.jpg", "a.jpg", ⟨2025, 1, 10, 0, 0, 0⟩, none, true⟩]
              ⟨none, []⟩ false none [] ⟨2025, 2, 1, 0, 0, 0⟩).destFS
            ⟨2025, 2, 2, 0, 0, 0⟩).stats.total_found) := by decide

/-- C1 (amended): if a run with no date floor completes with zero
per-file errors — its state is saved with `last_sync` set to the run's
wall-clock end time, which is at or after every file's modification
time — and the source tree is unchanged, then a second run with
`forceAll = false` and no date floor classifies every discovered file
as skipped: `copied = 0` and `skipped = total_found`. -/
theorem idempotence_of_clean_first_run (hasPIL : Bool) (dest_dir : String)
    (files : List SrcFile) (st0 : SyncSt) (force1 : Bool) (destFS0 : List String)
    (e1 e2 : DateTime)
    (hnoerr : ∀ f ∈ files, f.copyFails = false)
    (hmtime : ∀ f ∈ files, f.mtime.leb e1 = true) :
    (organize_photos hasPIL true dest_dir files
        (organize_photos hasPIL true dest_dir files st0 force1 none destFS0 e1).state
        false none
        (organize_photos hasPIL true dest_dir files st0 force1 none destFS0 e1).destFS
        e2).stats.copied = 0 ∧
      (organize_photos hasPIL true dest_dir files
          (organize_photos hasPIL true dest_dir files st0 force1 none destFS0 e1).state
          false none
          (organize_photos hasPIL true dest_dir files st0 force1 none destFS0 e1).destFS
          e2).stats.skipped =
        (organize_photos hasPIL true dest_dir files
            (organize_photos hasPIL true dest_dir files st0 force1 none destFS0 e1).state
            false none
            (organize_photos hasPIL true dest_dir files st0 force1 none destFS0 e1).destFS
            e2).stats.total_found := by
  simp only [organize_photos, Bool.not_true, Bool.false_eq_true, if_false]
  have hcov : ∀ f ∈ files, is_image_file f.filename = true →
      f.mtime.leb e1 = true ∧
        dictMember f.relKey
          ((runWalkLulo hasPIL force1 none st0.last_sync dest_dir files
            ⟨st0.copied_files, destFS0, ⟨0, 0, 0, 0⟩⟩).copied_files) = true := by
    intro f hf himg
    exact ⟨hmtime f hf,
      runWalkLulo_covers hasPIL force1 st0.last_sync dest_dir files _ f hf himg (hnoerr f hf)⟩
  obtain ⟨h1, h2, _⟩ := runWalkLulo_all_skip hasPIL e1 dest_dir files
    ⟨(runWalkLulo hasPIL force1 none st0.last_sync dest_dir files
        ⟨st0.copied_files, destFS0, ⟨0, 0, 0, 0⟩⟩).copied_files,
      (runWalkLulo hasPIL force1 none st0.last_sync dest_dir files
        ⟨st0.copied_files, destFS0, ⟨0, 0, 0, 0⟩⟩).destFS, ⟨0, 0, 0, 0⟩⟩ hcov
  refine ⟨h1, ?_⟩
  simp only at h2
  omega

/-- C1 witness: the specification's own two-file scenario (one file
with an embedded EXIF date, one with none) run twice back to back: the
second run copies nothing and skips everything. -/
theorem idempotence_of_clean_first_run_witness :
    (organize_photos true true "dest"
        [⟨"a.jpg", "a.jpg", ⟨2025, 1, 20, 10, 0, 0⟩,
            some [("DateTimeOriginal", "2025:01:18 14:30:00")], false⟩,
          ⟨"b.jpg", "b.jpg", ⟨2025, 1, 19, 9, 0, 0⟩, none, false⟩]
        (organize_photos true true "dest"
          [⟨"a.jpg", "a.jpg", ⟨2025, 1, 20, 10, 0, 0⟩,
              some [("DateTimeOriginal", "2025:01:18 14:30:00")], false⟩,
            ⟨"b.jpg", "b.jpg", ⟨2025, 1, 19, 9, 0, 0⟩, none, false⟩]
          ⟨none, []⟩ false none [] ⟨2025, 2, 1, 0, 0, 0⟩).state
        false none
        (organize_photos true true "dest"
          [⟨"a.jpg", "a.jpg", ⟨2025, 1, 20, 10, 0, 0⟩,
              some [("DateTimeOriginal", "2025:01:18 14:30:00")], false⟩,
            ⟨"b.jpg", "b.jpg", ⟨2025, 1, 19, 9, 0, 0⟩, none, false⟩]
          ⟨none, []⟩ false none [] ⟨2025, 2, 1, 0, 0, 0⟩).destFS
        ⟨2025, 2, 2, 0, 0, 0⟩).stats.copied = 0 ∧
      (organize_photos true true "dest"
          [⟨"a.jpg", "a.jpg", ⟨2025, 1, 20, 10, 0, 0⟩,
              some [("DateTimeOriginal", "2025:01:18 14:30:00")], false⟩,
            ⟨"b.jpg", "b.jpg", ⟨2025, 1, 19, 9, 0, 0⟩, none, false⟩]
          (organize_photos true true "dest"
            [⟨"a.jpg", "a.jpg", ⟨2025, 1, 20, 10, 0, 0⟩,
                some [("DateTimeOriginal", "2025:01:18 14:30:00")], false⟩,
              ⟨"b.jpg", "b.jpg", ⟨2025, 1, 19, 9, 0, 0⟩, none, false⟩]
            ⟨none, []⟩ false none [] ⟨2025, 2, 1, 0, 0, 0⟩).state
          false none
          (organize_photos true true "dest"
            [⟨"a.jpg", "a.jpg", ⟨2025, 1, 20, 10, 0, 0⟩,
                some [("DateTimeOriginal", "2025:01:18 14:30:00")], false⟩,
              ⟨"b.jpg", "b.jpg", ⟨2025, 1, 19, 9, 0, 0⟩, none, false⟩]
            ⟨none, []⟩ false none [] ⟨2025, 2, 1, 0, 0, 0⟩).destFS
          ⟨2025, 2, 2, 0, 0, 0⟩).stats.skipped =
        (organize_photos true true "dest"
            [⟨"a.jpg", "a.jpg", ⟨2025, 1, 20, 10, 0, 0⟩,
                some [("DateTimeOriginal", "2025:01:18 14:30:00")], false⟩,
              ⟨"b.jpg", "b.jpg", ⟨2025, 1, 19, 9, 0, 0⟩, none, false⟩]
            (organize_photos true true "dest"
              [⟨"a.jpg", "a.jpg", ⟨2025, 1, 20, 10, 0, 0⟩,
                  some [("DateTimeOriginal", "2025:01:18 14:30:00")], false⟩,
                ⟨"b.jpg", "b.jpg", ⟨2025, 1, 19, 9, 0, 0⟩, none, false⟩]
              ⟨none, []⟩ false none [] ⟨2025, 2, 1, 0, 0, 0⟩).state
            false none
            (organize_photos true true "dest"
              [⟨"a.jpg", "a.jpg", ⟨2025, 1, 20, 10, 0, 0⟩,
                  some [("DateTimeOriginal", "2025:01:18 14:30:00")], false⟩,
                ⟨"b.jpg", "b.jpg", ⟨2025, 1, 19, 9, 0, 0⟩, none, false⟩]
              ⟨none, []⟩ false none [] ⟨2025, 2, 1, 0, 0, 0⟩).destFS
            ⟨2025, 2, 2, 0, 0, 0⟩).stats.total_found :=
  idempotence_of_clean_first_run true "dest"
    [⟨"a.jpg", "a.jpg", ⟨2025, 1, 20, 10, 0, 0⟩,
        some [("DateTimeOriginal", "2025:01:18 14:30:00")], false⟩,
      ⟨"b.jpg", "b.jpg", ⟨2025, 1, 19, 9, 0, 0⟩, none, false⟩]
    ⟨none, []⟩ false [] ⟨2025, 2, 1, 0, 0, 0⟩ ⟨2025, 2, 2, 0, 0, 0⟩
    (by decide) (by decide)

/-- C3: a file whose resolved date is strictly below the configured
floor is classified skipped by the floor path whatever the sync state
is (the state is not consulted), the step changes neither the
`copied_files` dict nor the destination file set, and across a whole
run its key never enters `copied_files` (it was absent before and every
other file sharing its key is likewise below the floor). -/
theorem date_floor_filter (hasPIL force_all : Bool) (dest_dir : String)
    (files : List SrcFile) (st : SyncSt) (destFS0 : List String) (endTime : DateTime)
    (fd : DateTime) (f : SrcFile)
    (hdate : (get_photo_date hasPIL f).ltb fd = true) :
    (∀ (env : WalkEnv) (ls : Option DateTime),
      (stepLulo hasPIL force_all (some fd) ls dest_dir env f).2 = Outcome.skippedFloor ∧
        (stepLulo hasPIL force_all (some fd) ls dest_dir env f).1.copied_files
          = env.copied_files ∧
        (stepLulo hasPIL force_all (some fd) ls dest_dir env f).1.destFS = env.destFS) ∧
    ((∀ g ∈ files, is_image_file g.filename = true → g.relKey = f.relKey →
        (get_photo_date hasPIL g).ltb fd = true) →
      dictMember f.relKey st.copied_files = false →
      dictMember f.relKey
        (organize_photos hasPIL true dest_dir files st force_all (some fd) destFS0
          endTime).state.copied_files = false) := by
  constructor
  · intro env ls
    rw [stepLulo_floor_skip hasPIL force_all ls dest_dir env f fd hdate]
    exact ⟨rfl, rfl, rfl⟩
  · intro hall hmem
    simp only [organize_photos, Bool.not_true, Bool.false_eq_true, if_false]
    exact runWalkLulo_floor_key_preserved hasPIL force_all st.last_sync dest_dir fd
      f.relKey files ⟨st.copied_files, destFS0, ⟨0, 0, 0, 0⟩⟩ hall hmem

/-- C3 witness: a concrete file dated 2025-01-10, below a floor of
2025-02-01, is floor-skipped without touching state or destination, and
never enters `copied_files` over a run. -/
theorem date_floor_filter_witness :
    ((stepLulo true false (some ⟨2025, 2, 1, 0, 0, 0⟩) none "d"
        ⟨[], [], ⟨0, 0, 0, 0⟩⟩
        ⟨"a.jpg", "a.jpg", ⟨2025, 1, 10, 0, 0, 0⟩, none, false⟩).2 = Outcome.skippedFloor ∧
      (stepLulo true false (some ⟨2025, 2, 1, 0, 0, 0⟩) none "d"
        ⟨[], [], ⟨0, 0, 0, 0⟩⟩
        ⟨"a.jpg", "a.jpg", ⟨2025, 1, 10, 0, 0, 0⟩, none, false⟩).1.copied_files = [] ∧
      (stepLulo true false (some ⟨2025, 2, 1, 0, 0, 0⟩) none "d"
        ⟨[], [], ⟨0, 0, 0, 0⟩⟩
        ⟨"a.jpg", "a.jpg", ⟨2025, 1, 10, 0, 0, 0⟩, none, false⟩).1.destFS = []) ∧
    dictMember "a.jpg"
      (organize_photos true true "d"
        [⟨"a.jpg", "a.jpg", ⟨2025, 1, 10, 0, 0, 0⟩, none, false⟩]
        ⟨none, []⟩ false (some ⟨2025, 2, 1, 0, 0, 0⟩) []
        ⟨2025, 3, 1, 0, 0, 0⟩).state.copied_files = false := by
  obtain ⟨h1, h2⟩ := date_floor_filter true false "d"
    [⟨"a.jpg", "a.jpg", ⟨2025, 1, 10, 0, 0, 0⟩, none, false⟩]
    ⟨none, []⟩ [] ⟨2025, 3, 1, 0, 0, 0⟩ ⟨2025, 2, 1, 0, 0, 0⟩
    ⟨"a.jpg", "a.jpg", ⟨2025, 1, 10, 0, 0, 0⟩, none, false⟩ (by decide)
  exact ⟨h1 ⟨[], [], ⟨0, 0, 0, 0⟩⟩ none, h2 (by decide) (by decide)⟩

/-- C4: the planner never returns a path present in the destination set
(no existing file is overwritten); when the straightforward path is
free it is used unchanged, otherwise the result carries a numeric
suffix `_k` (k ≥ 1) inserted before the extension; and across a whole
walk the destination file set stays duplicate-free and keeps every
pre-existing file, so all written paths are pairwise distinct. -/
theorem collision_no_overwrite :
    (∀ (fs : List String) (folder filename : String),
      resolveCollision fs folder filename ∉ fs) ∧
    (∀ (fs : List String) (folder filename : String),
      pathJoin folder filename ∉ fs →
        resolveCollision fs folder filename = pathJoin folder filename) ∧
    (∀ (fs : List String) (folder filename : String),
      pathJoin folder filename ∈ fs →
        ∃ k, 1 ≤ k ∧
          resolveCollision fs folder filename = destCandidate folder filename k) ∧
    (∀ (hasPIL force_all : Bool) (sd ls : Option DateTime) (dd : String)
        (files : List SrcFile) (env : WalkEnv), env.destFS.Nodup →
      (runWalkLulo hasPIL force_all sd ls dd files env).destFS.Nodup ∧
        env.destFS ⊆ (runWalkLulo hasPIL force_all sd ls dd files env).destFS) := by
  refine ⟨?_, ?_, ?_, ?_⟩
  · intro fs folder filename
    exact (contains_false_iff fs _).mp (resolveCollision_not_mem fs folder filename)
  · intro fs folder filename h
    exact resolveCollision_of_free fs folder filename ((contains_false_iff fs _).mpr h)
  · intro fs folder filename h
    exact resolveCollision_shape fs folder filename ((contains_true_iff fs _).mpr h)
  · intro hasPIL force_all sd ls dd files env h
    exact runWalkLulo_destFS hasPIL force_all sd ls dd files env h

/-- C4 witness: with `d/a.jpg` and `d/a_1.jpg` both present, the
planner's result avoids both; a free straightforward path is kept; a
colliding one gets a numeric suffix; and a concrete walk on an empty
destination stays duplicate-free. -/
theorem collision_no_overwrite_witness :
    resolveCollision ["d/a.jpg", "d/a_1.jpg"] "d" "a.jpg" ∉ ["d/a.jpg", "d/a_1.jpg"] ∧
    pathJoin "d" "b.jpg" ∉ ["d/x.jpg"] ∧
    resolveCollision ["d/x.jpg"] "d" "b.jpg" = pathJoin "d" "b.jpg" ∧
    pathJoin "d" "a.jpg" ∈ ["d/a.jpg"] ∧
    (∃ k, 1 ≤ k ∧
      resolveCollision ["d/a.jpg"] "d" "a.jpg" = destCandidate "d" "a.jpg" k) ∧
    (runWalkLulo true false none none "d"
        [⟨"a.jpg", "a.jpg", ⟨2025, 1, 10, 0, 0, 0⟩, none, false⟩]
        ⟨[], [], ⟨0, 0, 0, 0⟩⟩).destFS.Nodup := by
  refine ⟨collision_no_overwrite.1 ["d/a.jpg", "d/a_1.jpg"] "d" "a.jpg", by decide,
    collision_no_overwrite.2.1 ["d/x.jpg"] "d" "b.jpg" (by decide), by decide,
    collision_no_overwrite.2.2.1 ["d/a.jpg"] "d" "a.jpg" (by decide), ?_⟩
  exact (collision_no_overwrite.2.2.2 true false none none "d"
    [⟨"a.jpg", "a.jpg", ⟨2025, 1, 10, 0, 0, 0⟩, none, false⟩]
    ⟨[], [], ⟨0, 0, 0, 0⟩⟩ (by decide)).1

/-- C8 counterexample: a sidecar file holding the JSON object `{}` is
malformed for the state schema (both fields are missing), yet
`load_state` returns it unchanged and without a warning instead of
returning the default state. -/
theorem load_state_wrong_shape_counterexample :
    load_state (some (some (PVal.vobj []))) = (PVal.vobj [], false) ∧
      PVal.vobj [] ≠ defaultState := by
  constructor
  · rfl
  · intro h
    rw [defaultState] at h
    injection h with h2
    cases h2

/-- C8 (amended): `load_state` returns the default state
`{last_sync: none, copied_files: {}}` when the sidecar file is missing
(without a warning), and logs a warning and returns that same default
when the file cannot be parsed as JSON or when the in-place conversion
of `last_sync` raises (value unparseable or not a string, or the parsed
top-level value is one on which the membership test raises); it never
raises itself; but a parsed value of the wrong shape on which nothing
raises — e.g. an object lacking the `last_sync` key — is returned
as-is, without warning and without defaulting. -/
theorem load_state_defaulting :
    load_state none = (defaultState, false) ∧
    load_state (some none) = (defaultState, true) ∧
    (∀ l, objHasKey "last_sync" l = false →
      load_state (some (some (.vobj l))) = (.vobj l, false)) ∧
    (∀ (l : List (String × PVal)) (s : String) (d : DateTime),
      objGet "last_sync" l = some (.vstr s) → parseIso s = some d →
        load_state (some (some (.vobj l))) =
          (.vobj (objSet "last_sync" (.vdate d) l), false)) ∧
    (∀ (l : List (String × PVal)) (s : String),
      objGet "last_sync" l = some (.vstr s) → parseIso s = none →
        load_state (some (some (.vobj l))) = (defaultState, true)) ∧
    (∀ (l : List (String × PVal)) (v : PVal),
      objGet "last_sync" l = some v → (∀ s, v ≠ .vstr s) →
        load_state (some (some (.vobj l))) = (defaultState, true)) ∧
    (∀ n : Int, load_state (some (some (.vnum n))) = (defaultState, true)) ∧
    (∀ b : Bool, load_state (some (some (.vbool b))) = (defaultState, true)) ∧
    load_state (some (some .vnull)) = (defaultState, true) := by
  refine ⟨rfl, rfl, ?_, ?_, ?_, ?_, fun n => rfl, fun b => rfl, rfl⟩
  · intro l h
    simp only [load_state, loadTry, pyContains, h, exc_bind_ok, Bool.false_eq_true, if_false]
    rfl
  · intro l s d h1 h2
    have hk := objGet_hasKey "last_sync" l _ h1
    simp only [load_state, loadTry, pyContains, pyGetItem, pyFromIso, pySetItem, hk, h1, h2,
      exc_bind_ok, if_true]
  · intro l s h1 h2
    have hk := objGet_hasKey "last_sync" l _ h1
    simp only [load_state, loadTry, pyContains, pyGetItem, pyFromIso, pySetItem, hk, h1, h2,
      exc_bind_ok, exc_bind_err, if_true]
  · intro l v h1 h2
    have hk := objGet_hasKey "last_sync" l _ h1
    cases v with
    | vstr s => exact absurd rfl (h2 s)
    | vnull =>
      simp only [load_state, loadTry, pyContains, pyGetItem, pyFromIso, pySetItem, hk, h1,
        exc_bind_ok, exc_bind_err, if_true]
    | vbool b =>
      simp only [load_state, loadTry, pyContains, pyGetItem, pyFromIso, pySetItem, hk, h1,
        exc_bind_ok, exc_bind_err, if_true]
    | vnum n =>
      simp only [load_state, loadTry, pyContains, pyGetItem, pyFromIso, pySetItem, hk, h1,
        exc_bind_ok, exc_bind_err, if_true]
    | varr a =>
      simp only [load_state, loadTry, pyContains, pyGetItem, pyFromIso, pySetItem, hk, h1,
        exc_bind_ok, exc_bind_err, if_true]
    | vobj o =>
      simp only [load_state, loadTry, pyContains, pyGetItem, pyFromIso, pySetItem, hk, h1,
        exc_bind_ok, exc_bind_err, if_true]
    | vdate dt =>
      simp only [load_state, loadTry, pyContains, pyGetItem, pyFromIso, pySetItem, hk, h1,
        exc_bind_ok, exc_bind_err, if_true]

/-- C8 witness: a well-formed concrete sidecar object has its
`last_sync` string converted in place, and a concrete unparseable
`last_sync` triggers the warned default. -/
theorem load_state_defaulting_witness :
    load_state (some (some (.vobj
        [("last_sync", .vstr "2025-01-18T14:30:45"), ("copied_files", .vobj [])]))) =
      (.vobj (objSet "last_sync" (.vdate ⟨2025, 1, 18, 14, 30, 45⟩)
        [("last_sync", .vstr "2025-01-18T14:30:45"), ("copied_files", .vobj [])]), false) ∧
    load_state (some (some (.vobj [("last_sync", .vstr "garbage")]))) =
      (defaultState, true) := by
  constructor
  · exact load_state_defaulting.2.2.2.1
      [("last_sync", .vstr "2025-01-18T14:30:45"), ("copied_files", .vobj [])]
      "2025-01-18T14:30:45" ⟨2025, 1, 18, 14, 30, 45⟩ rfl rfl
  · exact load_state_defaulting.2.2.2.2.1 [("last_sync", .vstr "garbage")] "garbage" rfl rfl

end Lulofoto
